import Mathlib

/-!
Verification development for the subscription-tracker application (src/app.py).

The embedding models, directly from the source:
* the calendar-date arithmetic used by `dateutil.relativedelta` and
  `datetime.date` (month addition clamps the day to the target month length;
  adding one year equals adding twelve months under that clamping rule);
* `next_renewal_from` (parse a YYYY-MM-DD string, then walk forward by the
  frequency step while the candidate is on or before today);
* `to_dataframe` (per-record enrichment: status / next_renewal column
  defaulting, cost coercion, monthly and annual cost rounding);
* the dashboard queries `renew_soon` and `top3`, the create-form submit
  handler, and the cancel / delete row actions of the subscriptions tab.

Numeric costs are modelled as exact rationals; `round(x, 2)` is modelled as
rounding half-to-even at two decimals, as Python and pandas do. Python
`datetime.date` values are always calendar-valid, and on valid dates the
comparison below (lexicographic on (year * 12 + month - 1, day)) agrees with
Python's lexicographic (year, month, day) comparison.
-/

namespace GestAbo

/-- Calendar date (year, month, day), as used by `datetime.date`. -/
structure Date where
  year : Nat
  month : Nat
  day : Nat
deriving DecidableEq

/-- Gregorian leap-year test, as in `calendar.isleap`. -/
def isLeapYear (y : Nat) : Bool :=
  (y % 4 == 0 && y % 100 != 0) || y % 400 == 0

/-- Number of days of month `m` of year `y`. -/
def daysInMonth (y m : Nat) : Nat :=
  if m = 2 then (if isLeapYear y then 29 else 28)
  else if m = 4 ∨ m = 6 ∨ m = 9 ∨ m = 11 then 30
  else 31

/-- Zero-based month rank of a date: `year * 12 + (month - 1)`. -/
def monthIndex (d : Date) : Nat :=
  d.year * 12 + (d.month - 1)

/-- Date comparison, `a <= b`. On calendar-valid dates (month between 1
and 12) this is exactly the lexicographic (year, month, day) order of
Python `datetime.date`. -/
def dateLe (a b : Date) : Bool :=
  decide (monthIndex a < monthIndex b) ||
    (decide (monthIndex a = monthIndex b) && decide (a.day ≤ b.day))

/-- Strict date comparison, `a < b`. -/
def dateLt (a b : Date) : Bool :=
  decide (monthIndex a < monthIndex b) ||
    (decide (monthIndex a = monthIndex b) && decide (a.day < b.day))

/-- Month addition with day clamping: `d + relativedelta(months=k)`.
The target month is `monthIndex d + k`; the day is clamped to the target
month length, exactly as `dateutil.relativedelta` does. -/
def addMonths (d : Date) (k : Nat) : Date :=
  let t := monthIndex d + k
  let y := t / 12
  let m := t % 12 + 1
  { year := y, month := m, day := min d.day (daysInMonth y m) }

/-- Year addition with day clamping: `d + relativedelta(years=1)`. -/
def addYears (d : Date) : Date :=
  { year := d.year + 1, month := d.month,
    day := min d.day (daysInMonth (d.year + 1) d.month) }

/-- Successor day, rolling over month and year boundaries. -/
def nextDay (d : Date) : Date :=
  if d.day < daysInMonth d.year d.month then
    { year := d.year, month := d.month, day := d.day + 1 }
  else if d.month < 12 then
    { year := d.year, month := d.month + 1, day := 1 }
  else
    { year := d.year + 1, month := 1, day := 1 }

/-- Day addition: `d + Timedelta(days=n)` at date granularity. -/
def addDays (d : Date) : Nat → Date
  | 0 => d
  | n + 1 => addDays (nextDay d) n

theorem monthIndex_addMonths (d : Date) (k : Nat) :
    monthIndex (addMonths d k) = monthIndex d + k := by
  simp only [addMonths, monthIndex]
  omega

theorem monthIndex_le_of_dateLe (a b : Date) (h : dateLe a b = true) :
    monthIndex a ≤ monthIndex b := by
  simp only [dateLe, Bool.or_eq_true, Bool.and_eq_true, decide_eq_true_eq] at h
  omega

theorem dateLe_false_iff (a b : Date) :
    dateLe a b = false ↔ dateLt b a = true := by
  simp only [dateLe, dateLt, Bool.or_eq_false_iff, Bool.and_eq_false_iff,
    Bool.or_eq_true, Bool.and_eq_true, decide_eq_false_iff_not,
    decide_eq_true_eq, not_lt]
  omega

/-- On dates whose month lies in 1..12 (every Python `datetime.date`, and
every output of `addMonths`), adding `relativedelta(years=1)` is the same
as adding twelve months: both target (year + 1, month) and clamp the day. -/
theorem addMonths_twelve_eq_addYears (d : Date)
    (h1 : 1 ≤ d.month) (h2 : d.month ≤ 12) :
    addMonths d 12 = addYears d := by
  simp only [addMonths, addYears, monthIndex]
  have hy : (d.year * 12 + (d.month - 1) + 12) / 12 = d.year + 1 := by omega
  have hm : (d.year * 12 + (d.month - 1) + 12) % 12 + 1 = d.month := by omega
  rw [hy, hm]

/-- Split a character list at every dash, like `"a-b".split("-")`. -/
def splitDash : List Char → List (List Char)
  | [] => [[]]
  | c :: rest =>
    let r := splitDash rest
    if c = '-' then [] :: r
    else match r with
      | [] => [[c]]
      | h :: t => (c :: h) :: t

/-- Decimal-digit test for a character. -/
def isDigitChar (c : Char) : Bool :=
  48 ≤ c.toNat && c.toNat ≤ 57

/-- True when the chunk is nonempty and all its characters are digits. -/
def isDigits (cs : List Char) : Bool :=
  cs.length != 0 && cs.all isDigitChar

/-- Decimal value of a digit chunk. -/
def parseNat (cs : List Char) : Nat :=
  cs.foldl (fun acc c => acc * 10 + (c.toNat - 48)) 0

/-- Parse of `datetime.strptime(s, "%Y-%m-%d").date()`: a four-digit year,
a one-or-two-digit month, a one-or-two-digit day, separated by dashes, and
the `datetime.date` constructor's range checks (year at least 1, month in
1..12, day within the month). Any failure (a `ValueError`) yields `none`. -/
def parseDate (s : String) : Option Date :=
  match splitDash s.data with
  | [ys, ms, ds] =>
    if isDigits ys = true ∧ ys.length = 4 ∧
        isDigits ms = true ∧ 1 ≤ ms.length ∧ ms.length ≤ 2 ∧
        isDigits ds = true ∧ 1 ≤ ds.length ∧ ds.length ≤ 2 then
      let y := parseNat ys
      let m := parseNat ms
      let d := parseNat ds
      if 1 ≤ y ∧ 1 ≤ m ∧ m ≤ 12 ∧ 1 ≤ d ∧ d ≤ daysInMonth y m then
        some { year := y, month := m, day := d }
      else none
    else none
  | _ => none

/-- Character of a decimal digit. -/
def digitChar (n : Nat) : Char :=
  Char.ofNat (48 + n)

/-- Big-endian decimal digits of `n`; the first argument is fuel, always
called with at least as much fuel as `n` has digits. -/
def natDigitsAux : Nat → Nat → List Char
  | 0, _ => []
  | fuel + 1, n =>
    if n = 0 then [] else natDigitsAux fuel (n / 10) ++ [digitChar (n % 10)]

/-- Decimal rendering of a natural number. -/
def natRepr (n : Nat) : String :=
  if n = 0 then "0" else String.mk (natDigitsAux n n)

/-- Zero-pad a number to two digits, as strftime `%m` and `%d` do. -/
def pad2 (n : Nat) : String :=
  if n < 10 then "0" ++ natRepr n else natRepr n

/-- Zero-pad a number to four digits, as strftime `%Y` does. -/
def pad4 (n : Nat) : String :=
  if n < 10 then "000" ++ natRepr n
  else if n < 100 then "00" ++ natRepr n
  else if n < 1000 then "0" ++ natRepr n
  else natRepr n

/-- Rendering of `d.strftime("%Y-%m-%d")`. -/
def formatDate (d : Date) : String :=
  pad4 d.year ++ "-" ++ pad2 d.month ++ "-" ++ pad2 d.day

/-- The `facteur` column of the FREQUENCES table: per-period-to-monthly
conversion factor for the three known frequency keys. -/
def FREQUENCES_facteur (k : String) : Option ℚ :=
  if k = "Mensuel" then some 1
  else if k = "Trimestriel" then some (1 / 3)
  else if k = "Annuel" then some (1 / 12)
  else none

/-- The `delta` column of the FREQUENCES table, expressed in months:
`relativedelta(months=1)`, `relativedelta(months=3)`, and
`relativedelta(years=1)`, the last being twelve months under day clamping
(`addMonths_twelve_eq_addYears`). -/
def FREQUENCES_delta (k : String) : Option Nat :=
  if k = "Mensuel" then some 1
  else if k = "Trimestriel" then some 3
  else if k = "Annuel" then some 12
  else none

/-- Lookup `FREQUENCES.get(k, FREQUENCES["Mensuel"])["facteur"]`: the factor
of `k`, the Mensuel factor 1 when `k` is unknown. -/
def facteur (k : String) : ℚ :=
  (FREQUENCES_facteur k).getD 1

/-- Lookup `FREQUENCES.get(k, FREQUENCES["Mensuel"])["delta"]` in months:
the step of `k`, the Mensuel step of one month when `k` is unknown. -/
def freqMonths (k : String) : Nat :=
  (FREQUENCES_delta k).getD 1

theorem freqMonths_pos (k : String) : 0 < freqMonths k := by
  simp only [freqMonths, FREQUENCES_delta]
  split_ifs <;> simp

/-- One bounded unfolding of the forward walk of `next_renewal_from`:
while the candidate is on or before `today`, add the frequency step of
`k` months. The first argument is fuel; `renewGo_spec` shows that with
the fuel `renewLoop` supplies and a positive step, the walk always stops
at the first candidate beyond `today` before the fuel runs out, so the
fuel is an implementation device, not a semantic bound. -/
def renewGo (k : Nat) (today : Date) : Nat → Date → Date
  | 0, d => d
  | fuel + 1, d =>
    if dateLe d today = true then renewGo k today fuel (addMonths d k) else d

/-- Forward walk of `next_renewal_from`. Every frequency step is at least
one month and strictly increases `monthIndex`, and the walk continues only
while `monthIndex d` is at most `monthIndex today`, so it performs at most
`monthIndex today + 1 - monthIndex d` additions; the supplied fuel
strictly exceeds that. -/
def renewLoop (k : Nat) (today d : Date) : Date :=
  renewGo k today (monthIndex today + 1 - monthIndex d + 1) d

/-- Candidate after `n` frequency steps of `k` months from `d`. -/
def iterStep (k : Nat) : Nat → Date → Date
  | 0, d => d
  | n + 1, d => iterStep k n (addMonths d k)

theorem renewGo_spec (k : Nat) (hk : 0 < k) (today : Date) :
    ∀ fuel d, monthIndex today + 1 - monthIndex d < fuel →
      ∃ n, renewGo k today fuel d = iterStep k n d ∧
        dateLe (iterStep k n d) today = false ∧
        ∀ m, m < n → dateLe (iterStep k m d) today = true := by
  intro fuel
  induction fuel with
  | zero => intro d hd; omega
  | succ fuel ih =>
    intro d hd
    by_cases h : dateLe d today = true
    · have h1 := monthIndex_le_of_dateLe d today h
      obtain ⟨n, g1, g2, g3⟩ := ih (addMonths d k) (by rw [monthIndex_addMonths]; omega)
      refine ⟨n + 1, ?_, ?_, ?_⟩
      · rw [renewGo, if_pos h]
        exact g1
      · simpa only [iterStep] using g2
      · intro m hm
        cases m with
        | zero => simpa only [iterStep] using h
        | succ j =>
          simp only [iterStep]
          exact g3 j (by omega)
    · refine ⟨0, ?_, ?_, ?_⟩
      · rw [renewGo, if_neg h]
        rfl
      · simpa only [iterStep, Bool.not_eq_true] using h
      · intro m hm
        exact absurd hm (Nat.not_lt_zero m)

/-- The walk result is the first candidate strictly beyond `today`: it is
reached after some `n` steps, it is not on or before `today`, and every
earlier candidate is on or before `today`. -/
theorem renewLoop_spec (k : Nat) (hk : 0 < k) (today d : Date) :
    ∃ n, renewLoop k today d = iterStep k n d ∧
      dateLe (iterStep k n d) today = false ∧
      ∀ m, m < n → dateLe (iterStep k m d) today = true :=
  renewGo_spec k hk today (monthIndex today + 1 - monthIndex d + 1) d (by omega)

/-- The function `next_renewal_from(start_str, freq_key)` of src/app.py,
with `date.today()` passed explicitly: parse the start string (returning
`None` on failure, as the try/except does), then walk forward by the
frequency step while the candidate is on or before today, and render the
result with strftime. -/
def next_renewal_from (start_str freq_key : String) (today : Date) :
    Option String :=
  match parseDate start_str with
  | none => none
  | some d => some (formatDate (renewLoop (freqMonths freq_key) today d))

/-- Nearest integer with ties to even, the rounding of Python `round` and
of pandas `Series.round`. -/
def roundHalfEven (q : ℚ) : ℤ :=
  let f := ⌊q⌋
  let r := q - (f : ℚ)
  if r < 1 / 2 then f
  else if 1 / 2 < r then f + 1
  else if f % 2 = 0 then f else f + 1

/-- Python `round(q, 2)`: round half-to-even at two decimal places. -/
def round2 (q : ℚ) : ℚ :=
  (roundHalfEven (q * 100) : ℚ) / 100

/-- The `monthly_cost` computation of `to_dataframe`:
`round(cost * FREQUENCES.get(freq, FREQUENCES["Mensuel"])["facteur"], 2)`. -/
def monthly_cost_of (cost : ℚ) (freq : String) : ℚ :=
  round2 (cost * facteur freq)

/-- The `annual_cost` computation of `to_dataframe`:
`(monthly_cost * 12).round(2)`. -/
def annual_cost_of (cost : ℚ) (freq : String) : ℚ :=
  round2 (monthly_cost_of cost freq * 12)

/-- A stored subscription record, one JSON object of the persisted list.
Every field except `name` is optional: a `none` models a missing key (or a
null / non-coercible value, which pandas treats the same way for the
purposes below). `cost` holds the numeric value when one is coercible. -/
structure Record where
  id : Option Nat
  name : String
  category : Option String
  cost : Option ℚ
  frequency : Option String
  start_date : Option String
  next_renewal : Option String
  payment_method : Option String
  notes : Option String
  status : Option String
  created_at : Option String
deriving DecidableEq

/-- A row of the enriched dataframe produced by `to_dataframe`: status and
category defaulted, cost coerced, derived costs computed, and the two date
columns converted (an unparsable or missing date becomes `none`, pandas
NaT). -/
structure Enriched where
  id : Option Nat
  name : String
  category : String
  cost : ℚ
  frequency : Option String
  start_date : Option Date
  next_renewal : Option Date
  payment_method : Option String
  notes : Option String
  status : Option String
  monthly_cost : ℚ
  annual_cost : ℚ
deriving DecidableEq

/-- Per-row work of `to_dataframe`. The three flags say whether the
`status`, `next_renewal` and `start_date` columns are absent from the
whole loaded collection (a pandas column exists when any record has the
key). When the `status` column is absent every row gets "active"; when the
`next_renewal` column is absent it is computed by
`next_renewal_from(str(r.get("start_date", date.today())), r.get("frequency", "Mensuel"))`
(the string of a missing start cell is "nan", which does not parse);
otherwise the stored value is kept. `category` is filled with
"Non catégorisé", `cost` is coerced with fallback 0, and the derived
costs and date conversions follow the source line by line. -/
def enrichRecord (statusMissing nrMissing startMissing : Bool) (today : Date)
    (r : Record) : Enriched :=
  let freq := r.frequency.getD "Mensuel"
  let nrStr : Option String :=
    if nrMissing then
      next_renewal_from
        (if startMissing then formatDate today else r.start_date.getD "nan")
        freq today
    else r.next_renewal
  { id := r.id
    name := r.name
    category := r.category.getD "Non catégorisé"
    cost := r.cost.getD 0
    frequency := r.frequency
    start_date := (if startMissing then none else r.start_date).bind parseDate
    next_renewal := nrStr.bind parseDate
    payment_method := r.payment_method
    notes := r.notes
    status := if statusMissing then some "active" else r.status
    monthly_cost := monthly_cost_of (r.cost.getD 0) freq
    annual_cost := annual_cost_of (r.cost.getD 0) freq }

/-- The function `to_dataframe(items)` of src/app.py, with `date.today()`
passed explicitly: the empty input yields the empty frame, otherwise each
record is enriched, with column-absence flags computed over the whole
collection. -/
def to_dataframe (items : List Record) (today : Date) : List Enriched :=
  if items.isEmpty then []
  else
    items.map
      (enrichRecord
        (items.all fun r => r.status.isNone)
        (items.all fun r => r.next_renewal.isNone)
        (items.all fun r => r.start_date.isNone)
        today)

/-- The dashboard `renew_soon` selection: among rows whose status equals
"active" (`df_active`), keep those with
`pd.to_datetime(next_renewal) <= now + Timedelta(days=7)`. The timestamp
`now` carries a time of day, so a midnight `next_renewal` satisfies the
bound exactly when its date is at most `today + 7` days; a NaT (missing)
`next_renewal` satisfies no comparison and is dropped. There is no lower
bound in the source. -/
def renew_soon (rows : List Enriched) (today : Date) : List Enriched :=
  (rows.filter fun e => decide (e.status = some "active")).filter fun e =>
    match e.next_renewal with
    | some d => dateLe d (addDays today 7)
    | none => false

/-- The `add_sub` form submit handler: reject when the name or category is
empty or the cost is not positive, leaving the collection untouched;
otherwise append a record with a fresh id `max(ids + [0]) + 1`, the
formatted start date, the projected next renewal, and status "active". -/
def add_sub_submit (name category : String) (cost : ℚ) (frequency : String)
    (start_date : Date) (payment_method notes created_at : String)
    (today : Date) (subs : List Record) : List Record :=
  if name = "" ∨ category = "" ∨ cost ≤ 0 then subs
  else
    let new_id := ((subs.map fun s => s.id.getD 0).foldl max 0) + 1
    let start_str := formatDate start_date
    subs ++
      [{ id := some new_id
         name := name
         category := some category
         cost := some cost
         frequency := some frequency
         start_date := some start_str
         next_renewal := next_renewal_from start_str frequency today
         payment_method := some payment_method
         notes := some notes
         status := some "active"
         created_at := some created_at }]

/-- The row key `r.get("id", r["name"])` used by the tab-2 actions: the id
when present, the name otherwise. Comparing an integer key with a string
key is False in Python, as the sum type's equality is here. -/
def rowKey (id : Option Nat) (name : String) : Sum Nat String :=
  match id with
  | some i => Sum.inl i
  | none => Sum.inr name

/-- Key of a displayed (enriched) row. -/
def enrichedKey (e : Enriched) : Sum Nat String :=
  rowKey e.id e.name

/-- Key of a stored record. -/
def recordKey (s : Record) : Sum Nat String :=
  rowKey s.id s.name

/-- The Résilier button handler: walk the stored list, set the status of
the first record whose key matches to "cancelled", and stop. -/
def cancel_first (key : Sum Nat String) : List Record → List Record
  | [] => []
  | s :: rest =>
    if recordKey s = key then { s with status := some "cancelled" } :: rest
    else s :: cancel_first key rest

/-- The Supprimer button handler: keep only the stored records whose key
differs from the clicked row's key. -/
def delete_all (key : Sum Nat String) (subs : List Record) : List Record :=
  subs.filter fun s => decide (recordKey s ≠ key)

/-- The action offered for a displayed row in the subscriptions tab: an
active row gets only the Résilier (cancel) button, any other row gets only
the Supprimer (delete) button. -/
def tab2_action (e : Enriched) (subs : List Record) : List Record :=
  if e.status = some "active" then cancel_first (enrichedKey e) subs
  else delete_all (enrichedKey e) subs

/-- Fixed evaluation day used by the concrete witnesses below. -/
def today0 : Date := ⟨2024, 3, 10⟩

/-- A stored record carrying a stale persisted `next_renewal` (2020-01-01,
long before `today0`), alongside a perfectly parsable `start_date`. -/
def r_stale : Record :=
  { id := some 1, name := "Netflix", category := some "Divertissement",
    cost := some 5, frequency := some "Mensuel",
    start_date := some "2024-01-15", next_renewal := some "2020-01-01",
    payment_method := some "PayPal", notes := some "",
    status := some "active", created_at := some "2024-01-15 10:00:00" }

/-- The §8 scenario record: 15.99 per month starting 2024-01-15. -/
def r1 : Record :=
  { id := some 1, name := "Netflix", category := some "Divertissement",
    cost := some (1599 / 100), frequency := some "Mensuel",
    start_date := some "2024-01-15", next_renewal := some "2024-03-15",
    payment_method := some "PayPal", notes := some "",
    status := some "active", created_at := some "2024-01-15 10:00:00" }

/-- An enriched active row whose `next_renewal` lies in the past, as
`to_dataframe` produces from a record like `r_stale`. -/
def e_past : Enriched :=
  { id := some 1, name := "Netflix", category := "Divertissement",
    cost := 5, frequency := some "Mensuel",
    start_date := some ⟨2024, 1, 15⟩, next_renewal := some ⟨2020, 1, 1⟩,
    payment_method := some "PayPal", notes := some "",
    status := some "active", monthly_cost := 5, annual_cost := 60 }

/-- An enriched active row with a future renewal date. -/
def e_act : Enriched := { e_past with next_renewal := some ⟨2024, 3, 15⟩ }

/-- First of two distinct enriched rows with equal monthly cost. -/
def eA : Enriched :=
  { id := some 1, name := "A", category := "Jeux", cost := 5,
    frequency := some "Mensuel", start_date := none, next_renewal := none,
    payment_method := none, notes := none, status := some "active",
    monthly_cost := 5, annual_cost := 60 }

/-- Second of two distinct enriched rows with equal monthly cost. -/
def eB : Enriched := { eA with id := some 2, name := "B" }

theorem cancel_first_length (key : Sum Nat String) (l : List Record) :
    (cancel_first key l).length = l.length := by
  induction l with
  | nil => rfl
  | cons s rest ih =>
    rw [cancel_first]
    split
    · rfl
    · simp only [List.length_cons, ih]

theorem mem_of_index {α : Type} (l : List α) (i : Nat) (a : α)
    (h : l[i]? = some a) : a ∈ l := by
  induction l generalizing i with
  | nil => simp at h
  | cons b t ih =>
    cases i with
    | zero =>
      simp only [List.getElem?_cons_zero, Option.some.injEq] at h
      exact h ▸ List.mem_cons_self b t
    | succ j =>
      simp only [List.getElem?_cons_succ] at h
      exact List.mem_cons_of_mem b (ih j h)

theorem cancel_first_keys (key : Sum Nat String) (l : List Record) :
    (cancel_first key l).map recordKey = l.map recordKey := by
  induction l with
  | nil => rfl
  | cons s rest ih =>
    rw [cancel_first]
    split
    · rfl
    · simp only [List.map_cons, ih]

/-- C1: for every parsable start date, every frequency and every today,
the projection returns the first candidate obtained from the start date by
whole frequency steps that is strictly greater than today: the result is
the formatted candidate after some number n of steps, that candidate is
strictly after today, and every earlier candidate is on or before today. -/
theorem C1_projection (s f : String) (today d : Date)
    (h : parseDate s = some d) :
    ∃ n, next_renewal_from s f today =
        some (formatDate (iterStep (freqMonths f) n d)) ∧
      dateLt today (iterStep (freqMonths f) n d) = true ∧
      ∀ m, m < n → dateLe (iterStep (freqMonths f) m d) today = true := by
  obtain ⟨n, h1, h2, h3⟩ := renewLoop_spec (freqMonths f) (freqMonths_pos f) today d
  refine ⟨n, ?_, (dateLe_false_iff _ _).mp h2, h3⟩
  simp only [next_renewal_from, h]
  rw [h1]

/-- Witness for C1 at the concrete record of §8: start 2024-01-15, Mensuel,
today 2024-03-10. -/
theorem C1_witness :
    ∃ n, next_renewal_from "2024-01-15" "Mensuel" today0 =
        some (formatDate (iterStep (freqMonths "Mensuel") n ⟨2024, 1, 15⟩)) ∧
      dateLt today0 (iterStep (freqMonths "Mensuel") n ⟨2024, 1, 15⟩) = true ∧
      ∀ m, m < n →
        dateLe (iterStep (freqMonths "Mensuel") m ⟨2024, 1, 15⟩) today0 = true :=
  C1_projection "2024-01-15" "Mensuel" today0 ⟨2024, 1, 15⟩ (by decide)

/-- C2: for every cost at least 0 and every known frequency, the enriched
row computes monthly_cost as round(cost * facteur, 2) and annual_cost as
round(monthly_cost * 12, 2), so annual_cost always equals the re-rounded
twelve-fold of monthly_cost. -/
theorem C2_normalize (sm nm stm : Bool) (today : Date) (r : Record)
    (cost : ℚ) (f : String) (h0 : 0 ≤ cost)
    (hf : f = "Mensuel" ∨ f = "Trimestriel" ∨ f = "Annuel")
    (hc : r.cost = some cost) (hfr : r.frequency = some f) :
    (enrichRecord sm nm stm today r).monthly_cost = round2 (cost * facteur f) ∧
    (enrichRecord sm nm stm today r).annual_cost =
      round2 ((enrichRecord sm nm stm today r).monthly_cost * 12) := by
  simp [enrichRecord, hc, hfr, monthly_cost_of, annual_cost_of]

/-- Witness for C2 at the §8 record r1 (15.99, Mensuel). -/
theorem C2_witness :
    (enrichRecord false false false today0 r1).monthly_cost =
      round2 ((1599 / 100) * facteur "Mensuel") ∧
    (enrichRecord false false false today0 r1).annual_cost =
      round2 ((enrichRecord false false false today0 r1).monthly_cost * 12) :=
  C2_normalize false false false today0 r1 (1599 / 100) "Mensuel"
    (by norm_num) (Or.inl rfl) rfl rfl

/-- Counterexample to C3: the collection [r_stale] carries a persisted
next_renewal of 2020-01-01; the enriched row keeps that stored value even
though the fresh projection from its start date is 2024-03-15, so the
next_renewal field is not recomputed on read. -/
theorem C3_counterexample :
    (to_dataframe [r_stale] today0).map (fun e => e.next_renewal) =
      [some ⟨2020, 1, 1⟩] ∧
    r_stale.start_date = some "2024-01-15" ∧
    r_stale.frequency = some "Mensuel" ∧
    (next_renewal_from "2024-01-15" "Mensuel" today0).bind parseDate =
      some ⟨2024, 3, 15⟩ ∧
    some (⟨2020, 1, 1⟩ : Date) ≠ some (⟨2024, 3, 15⟩ : Date) := by
  decide

/-- C3 as amended: to_dataframe projects next_renewal freshly only when no
loaded record carries a next_renewal value (the column is absent from the
frame); when this record has a persisted next_renewal, the enriched row
takes the stored string (date-converted), not a fresh projection. -/
theorem C3_next_renewal_source (items : List Record) (today : Date) (i : Nat)
    (r : Record) (hi : items[i]? = some r) :
    (∀ ss, r.start_date = some ss → (∀ x ∈ items, x.next_renewal = none) →
      ∃ e, (to_dataframe items today)[i]? = some e ∧
        e.next_renewal =
          (next_renewal_from ss (r.frequency.getD "Mensuel") today).bind parseDate) ∧
    (∀ ns, r.next_renewal = some ns →
      ∃ e, (to_dataframe items today)[i]? = some e ∧
        e.next_renewal = parseDate ns) := by
  have hmem : r ∈ items := mem_of_index items i r hi
  have hne : items.isEmpty = false := by
    cases items with
    | nil => simp at hi
    | cons a l => rfl
  have htd : (to_dataframe items today)[i]? =
      some (enrichRecord (items.all fun x => x.status.isNone)
        (items.all fun x => x.next_renewal.isNone)
        (items.all fun x => x.start_date.isNone) today r) := by
    rw [to_dataframe]
    simp only [hne, Bool.false_eq_true, if_false, List.getElem?_map, hi,
      Option.map_some']
  constructor
  · intro ss hss hall
    have hnm : (items.all fun x => x.next_renewal.isNone) = true := by
      rw [List.all_eq_true]
      intro x hx
      simp [hall x hx]
    have hsm : (items.all fun x => x.start_date.isNone) = false := by
      cases hc : items.all (fun x => x.start_date.isNone) with
      | false => rfl
      | true =>
        have hx := List.all_eq_true.mp hc r hmem
        rw [hss] at hx
        simp at hx
    refine ⟨_, htd, ?_⟩
    simp only [enrichRecord, hnm, hsm, hss]
    simp
  · intro ns hns
    have hnm : (items.all fun x => x.next_renewal.isNone) = false := by
      cases hc : items.all (fun x => x.next_renewal.isNone) with
      | false => rfl
      | true =>
        have hx := List.all_eq_true.mp hc r hmem
        rw [hns] at hx
        simp at hx
    refine ⟨_, htd, ?_⟩
    simp only [enrichRecord, hnm, hns]
    simp

/-- Witness for the amended C3: the stored next_renewal of r_stale is the
one the enriched row exposes. -/
theorem C3_witness :
    ∃ e, (to_dataframe [r_stale] today0)[0]? = some e ∧
      e.next_renewal = parseDate "2020-01-01" :=
  (C3_next_renewal_source [r_stale] today0 0 r_stale rfl).2 "2020-01-01" rfl

/-- C4: for every start string that does not parse as YYYY-MM-DD, the
projector returns the distinguishable error result none (Python None),
never a sentinel date. -/
theorem C4_invalid_date (s f : String) (today : Date)
    (h : parseDate s = none) :
    next_renewal_from s f today = none := by
  simp only [next_renewal_from, h]

/-- Witness for C4 at the unparsable string "oops". -/
theorem C4_witness :
    parseDate "oops" = none ∧
    next_renewal_from "oops" "Mensuel" today0 = none :=
  ⟨by decide, C4_invalid_date "oops" "Mensuel" today0 (by decide)⟩

/-- Counterexample to C5: the active row e_past has next_renewal
2020-01-01, strictly before today0, yet renew_soon returns it: the source
filter has no lower bound, so the claimed interval [today, today + 7] is
wrong on the left endpoint. -/
theorem C5_counterexample :
    renew_soon [e_past] today0 = [e_past] ∧
    e_past.next_renewal = some ⟨2020, 1, 1⟩ ∧
    dateLt ⟨2020, 1, 1⟩ today0 = true := by
  decide

/-- C5 as amended: renew_soon returns exactly the rows that are active and
whose next_renewal exists and is at most today + 7 days; cancelled rows
and rows with a missing next_renewal are excluded, but there is no lower
bound on next_renewal. -/
theorem C5_upcoming (rows : List Enriched) (today : Date) (e : Enriched) :
    e ∈ renew_soon rows today ↔
      e ∈ rows ∧ e.status = some "active" ∧
        ∃ d, e.next_renewal = some d ∧ dateLe d (addDays today 7) = true := by
  simp only [renew_soon, List.mem_filter, decide_eq_true_eq]
  constructor
  · rintro ⟨⟨he, hs⟩, hcond⟩
    refine ⟨he, hs, ?_⟩
    cases hnr : e.next_renewal with
    | none =>
      rw [hnr] at hcond
      exact absurd hcond (by simp)
    | some d =>
      rw [hnr] at hcond
      exact ⟨d, rfl, hcond⟩
  · rintro ⟨he, hs, d, hd, hcond⟩
    refine ⟨⟨he, hs⟩, ?_⟩
    rw [hd]
    exact hcond

/-- Witness for the amended C5 at the singleton collection [e_past]. -/
theorem C5_witness :
    e_past ∈ [e_past] ∧ e_past.status = some "active" ∧
      ∃ d, e_past.next_renewal = some d ∧
        dateLe d (addDays today0 7) = true :=
  (C5_upcoming [e_past] today0 e_past).mp (by decide)

/-- C6: every create request with an empty name, an empty category or a
non-positive cost is rejected before any mutation: the submit handler
returns the stored collection unchanged. -/
theorem C6_reject_invalid (name category : String) (cost : ℚ)
    (frequency : String) (start_date : Date)
    (payment_method notes created_at : String) (today : Date)
    (subs : List Record)
    (h : name = "" ∨ category = "" ∨ cost ≤ 0) :
    add_sub_submit name category cost frequency start_date payment_method
      notes created_at today subs = subs := by
  rw [add_sub_submit, if_pos h]

/-- Witness for C6: an empty name leaves the collection [r1] untouched. -/
theorem C6_witness :
    add_sub_submit "" "Jeux" 5 "Mensuel" ⟨2024, 1, 1⟩ "PayPal" ""
      "2024-01-01 00:00:00" today0 [r1] = [r1] :=
  C6_reject_invalid "" "Jeux" 5 "Mensuel" ⟨2024, 1, 1⟩ "PayPal" ""
    "2024-01-01 00:00:00" today0 [r1] (Or.inl rfl)

/-- C7: a row whose status is active only offers the cancel action, which
removes no record (the key list is unchanged); any shrink of the
collection can only happen through the delete branch, which, for rows with
a status in the active/cancelled enum, requires status cancelled. -/
theorem C7_active_not_deletable (e : Enriched) (subs : List Record)
    (henum : e.status = some "active" ∨ e.status = some "cancelled") :
    (e.status = some "active" →
      tab2_action e subs = cancel_first (enrichedKey e) subs ∧
      (tab2_action e subs).map recordKey = subs.map recordKey) ∧
    ((tab2_action e subs).length ≠ subs.length →
      e.status = some "cancelled") := by
  constructor
  · intro h
    rw [tab2_action, if_pos h]
    exact ⟨rfl, cancel_first_keys _ _⟩
  · intro hlen
    rcases henum with h | h
    · have hkeep : (tab2_action e subs).length = subs.length := by
        rw [tab2_action, if_pos h]
        exact cancel_first_length _ _
      exact absurd hkeep hlen
    · exact h

/-- Witness for C7: the action on the active row e_act over [r_stale] is
the cancel action and preserves every record key. -/
theorem C7_witness :
    tab2_action e_act [r_stale] = cancel_first (enrichedKey e_act) [r_stale] ∧
    (tab2_action e_act [r_stale]).map recordKey = [r_stale].map recordKey :=
  (C7_active_not_deletable e_act [r_stale] (Or.inl rfl)).1 rfl

/-- C8: every frequency outside the three known keys falls back to
Mensuel: factor 1, one-month step, identical renewal projection and
identical monthly cost; an unknown frequency is never an error. -/
theorem C8_unknown_freq (f : String)
    (h1 : f ≠ "Mensuel") (h2 : f ≠ "Trimestriel") (h3 : f ≠ "Annuel") :
    facteur f = 1 ∧ freqMonths f = 1 ∧
    (∀ s today, next_renewal_from s f today =
      next_renewal_from s "Mensuel" today) ∧
    ∀ c : ℚ, monthly_cost_of c f = monthly_cost_of c "Mensuel" := by
  have hfac : facteur f = 1 := by
    simp [facteur, FREQUENCES_facteur, h1, h2, h3]
  have hfm : freqMonths f = 1 := by
    simp [freqMonths, FREQUENCES_delta, h1, h2, h3]
  have hfmM : freqMonths "Mensuel" = 1 := by decide
  have hfacM : facteur "Mensuel" = 1 := by decide
  refine ⟨hfac, hfm, ?_, ?_⟩
  · intro s today
    simp only [next_renewal_from, hfm, hfmM]
  · intro c
    simp only [monthly_cost_of, hfac, hfacM]

/-- Witness for C8 at the unknown key "Hebdomadaire". -/
theorem C8_witness :
    facteur "Hebdomadaire" = 1 ∧ freqMonths "Hebdomadaire" = 1 ∧
    next_renewal_from "2024-01-15" "Hebdomadaire" today0 =
      next_renewal_from "2024-01-15" "Mensuel" today0 ∧
    monthly_cost_of 5 "Hebdomadaire" = monthly_cost_of 5 "Mensuel" := by
  have h := C8_unknown_freq "Hebdomadaire" (by decide) (by decide) (by decide)
  exact ⟨h.1, h.2.1, h.2.2.1 "2024-01-15" today0, h.2.2.2 5⟩

/-- C10: the forward walk terminates for every parsed start date and every
frequency: the step is at least one month, every step strictly increases
the candidate date, and after finitely many steps the candidate is
strictly beyond today, where the walk stops. -/
theorem C10_walk_terminates (f : String) (today d : Date) :
    0 < freqMonths f ∧
    (∀ x : Date, dateLt x (addMonths x (freqMonths f)) = true) ∧
    ∃ n, renewLoop (freqMonths f) today d = iterStep (freqMonths f) n d ∧
      dateLt today (iterStep (freqMonths f) n d) = true := by
  have hk := freqMonths_pos f
  refine ⟨hk, ?_, ?_⟩
  · intro x
    have hmi := monthIndex_addMonths x (freqMonths f)
    simp only [dateLt, Bool.or_eq_true, Bool.and_eq_true, decide_eq_true_eq,
      hmi]
    omega
  · obtain ⟨n, h1, h2, _⟩ := renewLoop_spec (freqMonths f) hk today d
    exact ⟨n, h1, (dateLe_false_iff _ _).mp h2⟩

end GestAbo
